import Mathlib

/-
  Verification development for the Boltzmann disk simulation
  (disk_sim.cpp and its variants).

  The simulation core is embedded shallowly over exact rationals:
  machine floats become rationals, the pseudo random generator becomes
  an explicit stream of draws threaded through the functions, and the
  square root computed by the distance utility is handled by working
  with squared distances, or by passing the distance value together
  with the algebraic fact that its square equals the squared distance.
-/

namespace DiskSim

/-- Body record of the simulation: matches struct Disk of disk_sim.cpp
    (floats become rationals, coin_count stays an integer). -/
structure Disk where
  x : ℚ
  y : ℚ
  vx : ℚ
  vy : ℚ
  radius : ℚ
  coin_count : ℤ
deriving Repr, DecidableEq

/-- Arena width in pixels (WIDTH constant). -/
def WIDTH : ℚ := 800

/-- Lower edge of the chart region; disks bounce off it (CHART_TOP constant). -/
def CHART_TOP : ℚ := 400

/-- Coin capacity per disk in the primary variant (MAX_COINS_PER_DISK = 25). -/
def MAX_COINS_PER_DISK : ℤ := 25

/-- Coin capacity per disk in the two older variants (MAX_COINS_PER_DISK = 8). -/
def MAX_COINS_SMALL : ℤ := 8

/-- Squared distance between the centers of two disks.  The source computes
    distance a b as the square root of this quantity. -/
def dist2 (a b : Disk) : ℚ :=
  (b.x - a.x) * (b.x - a.x) + (b.y - a.y) * (b.y - a.y)

/-- Collision test of handle_disk_collision: dist less than the sum of radii.
    Stated on squared quantities, which is equivalent for nonnegative radii. -/
def collides (a b : Disk) : Bool :=
  dist2 a b < (a.radius + b.radius) * (a.radius + b.radius)

/-- Elastic equal-mass response of handle_disk_collision: each velocity gains
    the difference of the normal components times the normal vector. -/
def elasticUpdate (p : Disk × Disk) (nx ny : ℚ) : Disk × Disk :=
  let v1n := p.1.vx * nx + p.1.vy * ny
  let v2n := p.2.vx * nx + p.2.vy * ny
  ({ p.1 with vx := p.1.vx + (v2n - v1n) * nx, vy := p.1.vy + (v2n - v1n) * ny },
   { p.2 with vx := p.2.vx + (v1n - v2n) * nx, vy := p.2.vy + (v1n - v2n) * ny })

/-- Enumeration of the splits (coins_in_d1, coins_in_d2) of the pair total that
    respect the per-disk capacity, as built by the loop in the uniform
    redistribution branch of handle_disk_collision. -/
def possible_redistributions (total : ℤ) : List (ℤ × ℤ) :=
  (List.range (total + 1).toNat).filterMap (fun a =>
    let ai : ℤ := (a : ℤ)
    let b : ℤ := total - ai
    if ai ≤ MAX_COINS_PER_DISK ∧ b ≤ MAX_COINS_PER_DISK then some (ai, b) else none)

/-- Uniform redistribution coin exchange of the primary variant: pick one of the
    valid splits uniformly at random (the draw is modelled by an arbitrary
    natural number reduced modulo the list length); when no split exists the
    counts are left unchanged. -/
def coinExchangeUniform (p : Disk × Disk) (choice : ℕ) : Disk × Disk :=
  let total := p.1.coin_count + p.2.coin_count
  let ps := possible_redistributions total
  if h : 0 < ps.length then
    let pr := ps.get ⟨choice % ps.length, Nat.mod_lt _ h⟩
    ({ p.1 with coin_count := pr.1 }, { p.2 with coin_count := pr.2 })
  else p

/-- Overlap fix of handle_disk_collision: when the disks interpenetrate, each
    center is pushed half the overlap along the collision normal. -/
def overlapFix (p : Disk × Disk) (nx ny d : ℚ) : Disk × Disk :=
  let overlap := (p.1.radius + p.2.radius) - d
  if 0 < overlap then
    let half := overlap / 2
    ({ p.1 with x := p.1.x - nx * half, y := p.1.y - ny * half },
     { p.2 with x := p.2.x + nx * half, y := p.2.y + ny * half })
  else p

/-- Collision resolver of the primary variant of disk_sim.cpp.  The parameter d
    stands for the distance computed by the source (the square root of
    dist2); the resolver tests d against the radius sum, then applies the
    elastic response, the uniform coin redistribution and the overlap fix.
    The boolean reports whether a collision was resolved. -/
def handle_disk_collision (d1 d2 : Disk) (d : ℚ) (choice : ℕ) : Disk × Disk × Bool :=
  if d < d1.radius + d2.radius then
    let nx := (d2.x - d1.x) / d
    let ny := (d2.y - d1.y) / d
    let p := overlapFix (coinExchangeUniform (elasticUpdate (d1, d2) nx ny) choice) nx ny d
    (p.1, p.2, true)
  else (d1, d2, false)

/-- One axis of the boundary reflection in update_position: clamp the position
    so the disk edge touches the wall and negate the velocity component. -/
def reflect1D (pos v radius lo hi : ℚ) : ℚ × ℚ :=
  if pos - radius < lo then (lo + radius, -v)
  else if pos + radius > hi then (hi - radius, -v)
  else (pos, v)

/-- update_position of the primary variant: advance by velocity times dt times
    the speed factor s, then reflect off the four arena walls, per axis. -/
def update_position (disk : Disk) (dt s : ℚ) : Disk :=
  let p := reflect1D (disk.x + disk.vx * dt * s) disk.vx disk.radius 0 WIDTH
  let q := reflect1D (disk.y + disk.vy * dt * s) disk.vy disk.radius 0 CHART_TOP
  { disk with x := p.1, vx := p.2, y := q.1, vy := q.2 }

/-- Number of true draws among n consecutive outcomes of the boolean draw
    stream u starting at index start; models a loop of n fair coin flips. -/
def countTrue (u : ℕ → Bool) (start n : ℕ) : ℕ :=
  ((List.range n).filter (fun i => u (start + i))).length

/-- Independent-trial coin exchange with the zero-coin special case, as in the
    third variant of handle_disk_collision (disk_sim.cpp around lines 869 to
    940).  The loop totals are captured from the counts before the special
    cases run, exactly as in the source; u is the stream of outcomes of the
    comparisons dist01(rng) less than one half, consumed left to right. -/
def specialCaseExchange (q1 q2 : ℤ) (u : ℕ → Bool) : ℤ × ℤ :=
  let t1 := q1.toNat
  let t2 := q2.toNat
  let a1 : ℤ := if q1 = 0 ∧ 0 < q2 then (if u 0 then q1 + 1 else q1) else q1
  let b1 : ℤ := if q1 = 0 ∧ 0 < q2 then (if u 0 then q2 - 1 else q2) else q2
  let i1 : ℕ := if q1 = 0 ∧ 0 < q2 then 1 else 0
  let a2 : ℤ := if b1 = 0 ∧ 0 < a1 then (if u i1 then a1 - 1 else a1) else a1
  let b2 : ℤ := if b1 = 0 ∧ 0 < a1 then (if u i1 then b1 + 1 else b1) else b1
  let i2 : ℕ := if b1 = 0 ∧ 0 < a1 then i1 + 1 else i1
  let toD2 : ℤ := countTrue u i2 t1
  let a3 := a2 - toD2
  let b3 := b2 + toD2
  let toD1 : ℤ := countTrue u (i2 + t1) t2
  let b4 := b3 - toD1
  let a4 := a3 + toD1
  (if a4 > MAX_COINS_SMALL then MAX_COINS_SMALL else a4,
   if b4 > MAX_COINS_SMALL then MAX_COINS_SMALL else b4)

/-- Statistics state of the aggregator: cumulative per-value observation
    counts and the per-value sample series xdata and ydata. -/
structure Stats where
  cumulative_counts : List ℤ
  xdata : List (List ℚ)
  ydata : List (List ℚ)
deriving Repr, DecidableEq

/-- Histogram of the population: for each coin value k from 0 to 25, how many
    disks currently hold exactly k coins (the counts vector of update_plot). -/
def countsOf (disks : List Disk) : List ℤ :=
  (List.range 26).map (fun k => (disks.countP (fun d => d.coin_count == (k : ℤ)) : ℤ))

/-- update_plot of the primary variant: add the current histogram to the
    cumulative counts, then append one sample point per coin value, the x
    coordinate being the global collision count and the y coordinate the
    running average cumulative count over collisions (zero while no
    collision was recorded). -/
def update_plot (disks : List Disk) (collision_count : ℕ) (st : Stats) : Stats :=
  let counts := countsOf disks
  let cum := (List.range 26).map (fun i => st.cumulative_counts.getD i 0 + counts.getD i 0)
  let xs := (List.range 26).map (fun i => st.xdata.getD i [] ++ [(collision_count : ℚ)])
  let ys := (List.range 26).map (fun i =>
    let avg : ℚ := if 0 < collision_count then (cum.getD i 0 : ℚ) / (collision_count : ℚ) else 0
    st.ydata.getD i [] ++ [avg])
  ⟨cum, xs, ys⟩

/-- Fixed sampling interval of the throttled chart update, 0.1 simulated
    seconds. -/
def SAMPLING_INTERVAL : ℚ := 1 / 10

/-- Throttled sampling step of the main loop: accumulate dt into the time
    since the last plot; when the accumulator reaches the sampling interval
    and at least one collision was ever recorded, run update_plot and reset
    the accumulator, otherwise leave the statistics untouched.  Returns the
    new statistics and the new accumulator value. -/
def maybe_sample (time_since_plot dt : ℚ) (collision_count : ℕ)
    (disks : List Disk) (st : Stats) : Stats × ℚ :=
  let t := time_since_plot + dt
  if SAMPLING_INTERVAL ≤ t ∧ 0 < collision_count then (update_plot disks collision_count st, 0)
  else (st, t)

/-- is_valid_position of the primary variant: the candidate center must keep
    the disk inside the arena and at least 1.1 times the radius sum away from
    every already placed disk. -/
def is_valid_position (existing : List Disk) (x y radius : ℚ) : Bool :=
  if x - radius < 0 ∨ x + radius > WIDTH ∨ y - radius < 0 ∨ y + radius > CHART_TOP then
    false
  else
    existing.all (fun d =>
      let dx := x - d.x
      let dy := y - d.y
      let min_dist := (radius + d.radius) * (11 / 10)
      decide (¬ (dx * dx + dy * dy < min_dist * min_dist)))

/-- Rejection sampling loop of find_valid_position: draw candidate centers
    from the stream cand starting at cursor k, for at most the given number
    of attempts; report the first valid candidate with the advanced cursor,
    or none when every attempt failed. -/
def findAux (existing : List Disk) (cand : ℕ → ℚ × ℚ) (radius : ℚ) :
    ℕ → ℕ → Option (ℚ × ℚ × ℕ)
  | _, 0 => none
  | k, n + 1 =>
    let c := cand k
    if is_valid_position existing c.1 c.2 radius then some (c.1, c.2, k + 1)
    else findAux existing cand radius (k + 1) n

/-- find_valid_position of the primary variant: the bounded placement search
    with the default budget of 1000 attempts. -/
def find_valid_position (existing : List Disk) (cand : ℕ → ℚ × ℚ)
    (k : ℕ) (radius : ℚ) : Option (ℚ × ℚ × ℕ) :=
  findAux existing cand radius k 1000

/-- Population initialization loop of main in the primary variant: place each
    disk at a valid position found by find_valid_position, draw its velocity
    from the stream vcand, give all coins to the first disk and none to the
    rest; report an explicit error as soon as one placement search fails.
    The arguments are the already placed disks, the candidate cursor and the
    number of disks still to place. -/
def initAux (cand vcand : ℕ → ℚ × ℚ) (radius : ℚ) :
    List Disk → ℕ → ℕ → Except String (List Disk)
  | placed, _, 0 => Except.ok placed
  | placed, k, n + 1 =>
    match find_valid_position placed cand k radius with
    | none => Except.error "Failed to place disk"
    | some (x, y, kn) =>
      let v := vcand placed.length
      let coins : ℤ := if placed.length = 0 then MAX_COINS_PER_DISK else 0
      initAux cand vcand radius (placed ++ [⟨x, y, v.1, v.2, radius, coins⟩]) kn n

/-- initialize_population: place count disks starting from an empty layout. -/
def initialize_population (cand vcand : ℕ → ℚ × ℚ) (radius : ℚ)
    (count : ℕ) : Except String (List Disk) :=
  initAux cand vcand radius [] 0 count

/-- State threaded through one tick of the stepper: the population, the
    cursor into the random draw stream and the global collision counter. -/
structure TickState where
  disks : List Disk
  rngIdx : ℕ
  collisions : ℕ
deriving Repr, DecidableEq

/-- Ascending pairs (i, j) with i < j < n, in the order of the double loop of
    the main simulation loop. -/
def pairIndices (n : ℕ) : List (ℕ × ℕ) :=
  (List.range n).flatMap (fun i => ((List.range n).drop (i + 1)).map (fun j => (i, j)))

/-- Resolve one index pair inside a tick: read the two disks, compute their
    distance (dsqrt stands for the square root applied to the squared
    distance), run handle_disk_collision with the next random draw, write the
    two disks back and bump the counters.  The draw cursor advances exactly
    when a collision consumed a draw. -/
def resolvePair (dsqrt : ℚ → ℚ) (g : ℕ → ℕ) (st : TickState) (ij : ℕ × ℕ) : TickState :=
  match st.disks.get? ij.1, st.disks.get? ij.2 with
  | some di, some dj =>
    let d := dsqrt (dist2 di dj)
    let r := handle_disk_collision di dj d (g st.rngIdx)
    if r.2.2 then
      ⟨(st.disks.set ij.1 r.1).set ij.2 r.2.1, st.rngIdx + 1, st.collisions + 1⟩
    else
      ⟨(st.disks.set ij.1 r.1).set ij.2 r.2.1, st.rngIdx, st.collisions⟩
  | _, _ => st

/-- One tick of the stepper: integrate every disk with update_position, then
    resolve all pairs in ascending index order, accumulating collisions. -/
def tick (dsqrt : ℚ → ℚ) (g : ℕ → ℕ) (dt s : ℚ) (st : TickState) : TickState :=
  let moved := st.disks.map (fun d => update_position d dt s)
  (pairIndices moved.length).foldl (resolvePair dsqrt g) ⟨moved, st.rngIdx, st.collisions⟩

/-- Run the stepper over a list of per-tick time deltas from an initial
    population, with draw stream g and speed factor s. -/
def runTicks (dsqrt : ℚ → ℚ) (g : ℕ → ℕ) (s : ℚ) (dts : List ℚ)
    (init : List Disk) : TickState :=
  dts.foldl (fun st dt => tick dsqrt g dt s st) ⟨init, 0, 0⟩

/-- Per-body coin trajectory of a run: the coin count vector of the
    population after each prefix of the tick sequence. -/
def coinTrajectory (dsqrt : ℚ → ℚ) (g : ℕ → ℕ) (s : ℚ) (dts : List ℚ)
    (init : List Disk) : List (List ℤ) :=
  (List.range (dts.length + 1)).map
    (fun m => ((runTicks dsqrt g s (dts.take m) init).disks).map (fun d => d.coin_count))

/-- Concrete disk used as a degenerate collision input: centered at
    (100, 100) with radius 20. -/
def coincidentA : Disk := ⟨100, 100, 3, 4, 20, 5⟩

/-- Second concrete disk with exactly the same center as coincidentA. -/
def coincidentB : Disk := ⟨100, 100, -1, 2, 20, 7⟩

/-- Concrete draw stream: true on indices 0 and 2, false elsewhere.  Feeds
    the zero-coin special case counterexample. -/
def drawsC1 (n : ℕ) : Bool := n == 0 || n == 2

/-- Concrete disk resting exactly on the left and top walls with velocity
    pointing out of the arena on both axes. -/
def cornerDisk : Disk := ⟨20, 20, -5, -7, 20, 0⟩

/-- Concrete candidate stream that always proposes a center outside the
    arena, so that every placement attempt is invalid. -/
def badCand (_ : ℕ) : ℚ × ℚ := (-100, -100)

/-- Concrete pair of separated but overlapping disks on the x axis used to
    instantiate the collision response theorems: centers 30 apart, radii 20. -/
def sepA : Disk := ⟨0, 0, 1, 0, 20, 0⟩

/-- Second disk of the concrete overlapping pair. -/
def sepB : Disk := ⟨30, 0, -2, 0, 20, 3⟩

/-- Concrete empty statistics state: all cumulative counts zero, no sample
    points recorded yet. -/
def emptyStats : Stats := ⟨List.replicate 26 0, List.replicate 26 [], List.replicate 26 []⟩

/-- Every split produced by the enumeration loop adds up to the pair total. -/
theorem mem_possible_redistributions {total : ℤ} {p : ℤ × ℤ}
    (hp : p ∈ possible_redistributions total) : p.1 + p.2 = total := by
  unfold possible_redistributions at hp
  rw [List.mem_filterMap] at hp
  obtain ⟨a, _, hfa⟩ := hp
  simp only at hfa
  split at hfa
  · cases hfa
    simp
  · cases hfa

/-- The uniform redistribution never changes the sum of the two counts. -/
theorem coinExchangeUniform_conserves (p : Disk × Disk) (c : ℕ) :
    (coinExchangeUniform p c).1.coin_count + (coinExchangeUniform p c).2.coin_count
      = p.1.coin_count + p.2.coin_count := by
  unfold coinExchangeUniform
  dsimp only
  split
  · exact mem_possible_redistributions (List.get_mem _ _ _)
  · rfl

/-- The elastic response leaves both coin counts unchanged. -/
theorem elasticUpdate_coin (p : Disk × Disk) (nx ny : ℚ) :
    (elasticUpdate p nx ny).1.coin_count = p.1.coin_count ∧
    (elasticUpdate p nx ny).2.coin_count = p.2.coin_count := by
  constructor <;> rfl

/-- The overlap fix leaves both coin counts unchanged. -/
theorem overlapFix_coin (p : Disk × Disk) (nx ny d : ℚ) :
    (overlapFix p nx ny d).1.coin_count = p.1.coin_count ∧
    (overlapFix p nx ny d).2.coin_count = p.2.coin_count := by
  unfold overlapFix
  dsimp only
  split <;> exact ⟨rfl, rfl⟩

/-- Unfolding of the resolver in the collision branch. -/
theorem handle_pos (d1 d2 : Disk) (d : ℚ) (choice : ℕ) (h : d < d1.radius + d2.radius) :
    handle_disk_collision d1 d2 d choice =
      (let nx := (d2.x - d1.x) / d
       let ny := (d2.y - d1.y) / d
       let p := overlapFix (coinExchangeUniform (elasticUpdate (d1, d2) nx ny) choice) nx ny d
       (p.1, p.2, true)) := by
  unfold handle_disk_collision
  rw [if_pos h]

/-- The elastic response leaves both positions and both radii unchanged. -/
theorem elasticUpdate_pos (p : Disk × Disk) (nx ny : ℚ) :
    (elasticUpdate p nx ny).1.x = p.1.x ∧ (elasticUpdate p nx ny).1.y = p.1.y ∧
    (elasticUpdate p nx ny).2.x = p.2.x ∧ (elasticUpdate p nx ny).2.y = p.2.y ∧
    (elasticUpdate p nx ny).1.radius = p.1.radius ∧
    (elasticUpdate p nx ny).2.radius = p.2.radius := by
  refine ⟨rfl, rfl, rfl, rfl, rfl, rfl⟩

/-- The coin exchange leaves positions, velocities and radii unchanged. -/
theorem coinExchangeUniform_kin (p : Disk × Disk) (c : ℕ) :
    (coinExchangeUniform p c).1.x = p.1.x ∧ (coinExchangeUniform p c).1.y = p.1.y ∧
    (coinExchangeUniform p c).1.vx = p.1.vx ∧ (coinExchangeUniform p c).1.vy = p.1.vy ∧
    (coinExchangeUniform p c).1.radius = p.1.radius ∧
    (coinExchangeUniform p c).2.x = p.2.x ∧ (coinExchangeUniform p c).2.y = p.2.y ∧
    (coinExchangeUniform p c).2.vx = p.2.vx ∧ (coinExchangeUniform p c).2.vy = p.2.vy ∧
    (coinExchangeUniform p c).2.radius = p.2.radius := by
  unfold coinExchangeUniform
  dsimp only
  split <;> refine ⟨rfl, rfl, rfl, rfl, rfl, rfl, rfl, rfl, rfl, rfl⟩

/-- The overlap fix leaves both velocities unchanged. -/
theorem overlapFix_vel (p : Disk × Disk) (nx ny d : ℚ) :
    (overlapFix p nx ny d).1.vx = p.1.vx ∧ (overlapFix p nx ny d).1.vy = p.1.vy ∧
    (overlapFix p nx ny d).2.vx = p.2.vx ∧ (overlapFix p nx ny d).2.vy = p.2.vy := by
  unfold overlapFix
  dsimp only
  split <;> refine ⟨rfl, rfl, rfl, rfl⟩

/-- Position formula of the overlap fix when the pair interpenetrates. -/
theorem overlapFix_pos_of_lt (p : Disk × Disk) (nx ny d : ℚ)
    (h : d < p.1.radius + p.2.radius) :
    (overlapFix p nx ny d).1.x = p.1.x - nx * ((p.1.radius + p.2.radius - d) / 2) ∧
    (overlapFix p nx ny d).1.y = p.1.y - ny * ((p.1.radius + p.2.radius - d) / 2) ∧
    (overlapFix p nx ny d).2.x = p.2.x + nx * ((p.1.radius + p.2.radius - d) / 2) ∧
    (overlapFix p nx ny d).2.y = p.2.y + ny * ((p.1.radius + p.2.radius - d) / 2) := by
  unfold overlapFix
  dsimp only
  rw [if_pos (by linarith)]
  exact ⟨rfl, rfl, rfl, rfl⟩

/-- Algebra of the elastic response for a unit normal: the normal components
    of the two velocities are exchanged and the tangential components are
    kept. -/
theorem elastic_normal_swap (p : Disk × Disk) (nx ny : ℚ) (hunit : nx * nx + ny * ny = 1) :
    ((elasticUpdate p nx ny).1.vx * nx + (elasticUpdate p nx ny).1.vy * ny
        = p.2.vx * nx + p.2.vy * ny) ∧
    ((elasticUpdate p nx ny).2.vx * nx + (elasticUpdate p nx ny).2.vy * ny
        = p.1.vx * nx + p.1.vy * ny) ∧
    ((elasticUpdate p nx ny).1.vx * (-ny) + (elasticUpdate p nx ny).1.vy * nx
        = p.1.vx * (-ny) + p.1.vy * nx) ∧
    ((elasticUpdate p nx ny).2.vx * (-ny) + (elasticUpdate p nx ny).2.vy * nx
        = p.2.vx * (-ny) + p.2.vy * nx) := by
  unfold elasticUpdate
  dsimp only
  refine ⟨?_, ?_, by ring, by ring⟩
  · linear_combination (p.2.vx * nx + p.2.vy * ny - p.1.vx * nx - p.1.vy * ny) * hunit
  · linear_combination (p.1.vx * nx + p.1.vy * ny - p.2.vx * nx - p.2.vy * ny) * hunit

/-- The collision normal has unit length whenever the distance value squares
    to the squared center distance and is nonzero. -/
theorem normal_unit (d1 d2 : Disk) (d : ℚ) (hd : d ≠ 0) (hsq : d * d = dist2 d1 d2) :
    ((d2.x - d1.x) / d) * ((d2.x - d1.x) / d)
      + ((d2.y - d1.y) / d) * ((d2.y - d1.y) / d) = 1 := by
  unfold dist2 at hsq
  field_simp
  linarith [hsq]

/-- Pushing two points apart by half the overlap along the normalized
    difference vector puts them at squared distance R squared. -/
theorem sep_algebra (x1 y1 x2 y2 d R : ℚ) (hd : d ≠ 0)
    (hsq : d * d = (x2 - x1) * (x2 - x1) + (y2 - y1) * (y2 - y1)) :
    ((x2 + ((x2 - x1) / d) * ((R - d) / 2)) - (x1 - ((x2 - x1) / d) * ((R - d) / 2)))
        * ((x2 + ((x2 - x1) / d) * ((R - d) / 2)) - (x1 - ((x2 - x1) / d) * ((R - d) / 2)))
      + ((y2 + ((y2 - y1) / d) * ((R - d) / 2)) - (y1 - ((y2 - y1) / d) * ((R - d) / 2)))
        * ((y2 + ((y2 - y1) / d) * ((R - d) / 2)) - (y1 - ((y2 - y1) / d) * ((R - d) / 2)))
      = R * R := by
  field_simp
  linear_combination (-4 * R * R) * hsq

/-- The bounded placement search fails when every candidate it may draw is
    invalid. -/
theorem findAux_none_of_all_invalid (existing : List Disk) (cand : ℕ → ℚ × ℚ) (radius : ℚ) :
    ∀ n k, (∀ j, k ≤ j → j < k + n →
        is_valid_position existing (cand j).1 (cand j).2 radius = false) →
      findAux existing cand radius k n = none := by
  intro n
  induction n with
  | zero => intro k _; rfl
  | succ m ih =>
    intro k h
    have h0 : is_valid_position existing (cand k).1 (cand k).2 radius = false :=
      h k (Nat.le_refl k) (by omega)
    unfold findAux
    dsimp only
    rw [h0]
    simp only [Bool.false_eq_true, if_false]
    exact ih (k + 1) (fun j hj1 hj2 => h j (by omega) (by omega))

/-- C1: the claim states that after every step each coin count lies between
    0 and the capacity under every exchange policy.  The variant of
    handle_disk_collision with the zero-coin special case violates it: on
    counts 0 and 1 with draws true, false, true, the exchange returns the
    pair (2, -1), a negative coin count. -/
theorem zero_coin_special_case_goes_negative :
    specialCaseExchange 0 1 drawsC1 = (2, -1) ∧ (specialCaseExchange 0 1 drawsC1).2 < 0 := by
  refine ⟨by decide, by decide⟩

/-- C2: under the uniform redistribution policy, every resolved collision
    between bodies whose coin counts lie in the capacity range leaves the
    pair coin total exactly unchanged. -/
theorem uniform_policy_conserves_pair_total (d1 d2 : Disk) (d : ℚ) (choice : ℕ)
    (hq1 : 0 ≤ d1.coin_count) (hq1m : d1.coin_count ≤ MAX_COINS_PER_DISK)
    (hq2 : 0 ≤ d2.coin_count) (hq2m : d2.coin_count ≤ MAX_COINS_PER_DISK)
    (hcol : d < d1.radius + d2.radius) :
    (handle_disk_collision d1 d2 d choice).1.coin_count
      + (handle_disk_collision d1 d2 d choice).2.1.coin_count
      = d1.coin_count + d2.coin_count := by
  rw [handle_pos d1 d2 d choice hcol]
  dsimp only
  rw [(overlapFix_coin _ _ _ _).1, (overlapFix_coin _ _ _ _).2]
  rw [coinExchangeUniform_conserves]
  rw [(elasticUpdate_coin _ _ _).1, (elasticUpdate_coin _ _ _).2]

/-- Witness for C2 at a concrete colliding pair with counts 0 and 3. -/
theorem uniform_policy_conserves_pair_total_witness :
    (0 : ℤ) ≤ sepA.coin_count ∧ sepA.coin_count ≤ MAX_COINS_PER_DISK ∧
    (0 : ℤ) ≤ sepB.coin_count ∧ sepB.coin_count ≤ MAX_COINS_PER_DISK ∧
    (30 : ℚ) < sepA.radius + sepB.radius ∧
    (handle_disk_collision sepA sepB 30 0).1.coin_count
      + (handle_disk_collision sepA sepB 30 0).2.1.coin_count
      = sepA.coin_count + sepB.coin_count :=
  ⟨by norm_num [sepA], by norm_num [sepA, MAX_COINS_PER_DISK],
   by norm_num [sepB], by norm_num [sepB, MAX_COINS_PER_DISK],
   by norm_num [sepA, sepB],
   uniform_policy_conserves_pair_total sepA sepB 30 0
     (by norm_num [sepA]) (by norm_num [sepA, MAX_COINS_PER_DISK])
     (by norm_num [sepB]) (by norm_num [sepB, MAX_COINS_PER_DISK])
     (by norm_num [sepA, sepB])⟩

/-- C3: the claim states that a pair with coincident centers is skipped
    safely with both bodies unchanged.  The code does the opposite: at zero
    center distance the collision test still fires, the resolver enters the
    branch that divides the center difference by the zero distance, reports
    a collision, and even rewrites the coin counts. -/
theorem degenerate_pair_not_skipped :
    dist2 coincidentA coincidentB = 0 ∧
    collides coincidentA coincidentB = true ∧
    (handle_disk_collision coincidentA coincidentB 0 0).2.2 = true ∧
    (handle_disk_collision coincidentA coincidentB 0 0).1.coin_count ≠
      coincidentA.coin_count := by
  refine ⟨by norm_num [dist2, coincidentA, coincidentB],
          by norm_num [collides, dist2, coincidentA, coincidentB],
          by norm_num [handle_disk_collision, coincidentA, coincidentB], ?_⟩
  norm_num [handle_disk_collision, coincidentA, coincidentB, overlapFix, coinExchangeUniform,
    elasticUpdate, possible_redistributions, MAX_COINS_PER_DISK]
  decide

/-- C4: for every detected collision with positive center distance, the
    resolved velocities exchange the two normal components and keep the two
    tangential components, along the collision normal scaled by d. -/
theorem handle_swaps_normal_components (d1 d2 : Disk) (d : ℚ) (choice : ℕ)
    (hd : 0 < d) (hsq : d * d = dist2 d1 d2) (hcol : d < d1.radius + d2.radius) :
    ((handle_disk_collision d1 d2 d choice).1.vx * ((d2.x - d1.x) / d)
        + (handle_disk_collision d1 d2 d choice).1.vy * ((d2.y - d1.y) / d)
        = d2.vx * ((d2.x - d1.x) / d) + d2.vy * ((d2.y - d1.y) / d)) ∧
    ((handle_disk_collision d1 d2 d choice).2.1.vx * ((d2.x - d1.x) / d)
        + (handle_disk_collision d1 d2 d choice).2.1.vy * ((d2.y - d1.y) / d)
        = d1.vx * ((d2.x - d1.x) / d) + d1.vy * ((d2.y - d1.y) / d)) ∧
    ((handle_disk_collision d1 d2 d choice).1.vx * (-((d2.y - d1.y) / d))
        + (handle_disk_collision d1 d2 d choice).1.vy * ((d2.x - d1.x) / d)
        = d1.vx * (-((d2.y - d1.y) / d)) + d1.vy * ((d2.x - d1.x) / d)) ∧
    ((handle_disk_collision d1 d2 d choice).2.1.vx * (-((d2.y - d1.y) / d))
        + (handle_disk_collision d1 d2 d choice).2.1.vy * ((d2.x - d1.x) / d)
        = d2.vx * (-((d2.y - d1.y) / d)) + d2.vy * ((d2.x - d1.x) / d)) := by
  rw [handle_pos d1 d2 d choice hcol]
  dsimp only
  have ho := overlapFix_vel
    (coinExchangeUniform (elasticUpdate (d1, d2) ((d2.x - d1.x) / d) ((d2.y - d1.y) / d)) choice)
    ((d2.x - d1.x) / d) ((d2.y - d1.y) / d) d
  have hc := coinExchangeUniform_kin
    (elasticUpdate (d1, d2) ((d2.x - d1.x) / d) ((d2.y - d1.y) / d)) choice
  rw [ho.1, ho.2.1, ho.2.2.1, ho.2.2.2,
      hc.2.2.1, hc.2.2.2.1, hc.2.2.2.2.2.2.2.1, hc.2.2.2.2.2.2.2.2.1]
  have he := elastic_normal_swap (d1, d2) ((d2.x - d1.x) / d) ((d2.y - d1.y) / d)
    (normal_unit d1 d2 d (ne_of_gt hd) hsq)
  exact he

/-- Witness for C4 at the concrete overlapping pair at distance 30. -/
theorem handle_swaps_normal_components_witness :
    (0 : ℚ) < 30 ∧ (30 : ℚ) * 30 = dist2 sepA sepB ∧
    ((handle_disk_collision sepA sepB 30 0).1.vx * ((sepB.x - sepA.x) / 30)
        + (handle_disk_collision sepA sepB 30 0).1.vy * ((sepB.y - sepA.y) / 30)
        = sepB.vx * ((sepB.x - sepA.x) / 30) + sepB.vy * ((sepB.y - sepA.y) / 30)) :=
  ⟨by norm_num, by norm_num [dist2, sepA, sepB],
   (handle_swaps_normal_components sepA sepB 30 0 (by norm_num)
     (by norm_num [dist2, sepA, sepB]) (by norm_num [sepA, sepB])).1⟩

/-- C5: for every resolved collision with positive center distance, the
    overlap fix moves body one backwards and body two forwards by half the
    overlap along the normal, and the resulting squared center distance is
    exactly the square of the radius sum. -/
theorem overlap_fix_separates (d1 d2 : Disk) (d : ℚ) (choice : ℕ)
    (hd : 0 < d) (hsq : d * d = dist2 d1 d2) (hcol : d < d1.radius + d2.radius) :
    ((handle_disk_collision d1 d2 d choice).1.x
        = d1.x - ((d2.x - d1.x) / d) * ((d1.radius + d2.radius - d) / 2)) ∧
    ((handle_disk_collision d1 d2 d choice).1.y
        = d1.y - ((d2.y - d1.y) / d) * ((d1.radius + d2.radius - d) / 2)) ∧
    ((handle_disk_collision d1 d2 d choice).2.1.x
        = d2.x + ((d2.x - d1.x) / d) * ((d1.radius + d2.radius - d) / 2)) ∧
    ((handle_disk_collision d1 d2 d choice).2.1.y
        = d2.y + ((d2.y - d1.y) / d) * ((d1.radius + d2.radius - d) / 2)) ∧
    dist2 (handle_disk_collision d1 d2 d choice).1 (handle_disk_collision d1 d2 d choice).2.1
      = (d1.radius + d2.radius) * (d1.radius + d2.radius) := by
  rw [handle_pos d1 d2 d choice hcol]
  dsimp only
  set nx := (d2.x - d1.x) / d with hnx
  set ny := (d2.y - d1.y) / d with hny
  set q := coinExchangeUniform (elasticUpdate (d1, d2) nx ny) choice with hq
  have hc := coinExchangeUniform_kin (elasticUpdate (d1, d2) nx ny) choice
  have hepos := elasticUpdate_pos (d1, d2) nx ny
  have hq1x : q.1.x = d1.x := by rw [hq, hc.1, hepos.1]
  have hq1y : q.1.y = d1.y := by rw [hq, hc.2.1, hepos.2.1]
  have hq2x : q.2.x = d2.x := by rw [hq, hc.2.2.2.2.2.1, hepos.2.2.1]
  have hq2y : q.2.y = d2.y := by rw [hq, hc.2.2.2.2.2.2.1, hepos.2.2.2.1]
  have hq1r : q.1.radius = d1.radius := by rw [hq, hc.2.2.2.2.1, hepos.2.2.2.2.1]
  have hq2r : q.2.radius = d2.radius := by rw [hq, hc.2.2.2.2.2.2.2.2.2, hepos.2.2.2.2.2]
  have hcolq : d < q.1.radius + q.2.radius := by rw [hq1r, hq2r]; exact hcol
  have hofix := overlapFix_pos_of_lt q nx ny d hcolq
  have h1x : (overlapFix q nx ny d).1.x = d1.x - nx * ((d1.radius + d2.radius - d) / 2) := by
    rw [hofix.1, hq1x, hq1r, hq2r]
  have h1y : (overlapFix q nx ny d).1.y = d1.y - ny * ((d1.radius + d2.radius - d) / 2) := by
    rw [hofix.2.1, hq1y, hq1r, hq2r]
  have h2x : (overlapFix q nx ny d).2.x = d2.x + nx * ((d1.radius + d2.radius - d) / 2) := by
    rw [hofix.2.2.1, hq2x, hq1r, hq2r]
  have h2y : (overlapFix q nx ny d).2.y = d2.y + ny * ((d1.radius + d2.radius - d) / 2) := by
    rw [hofix.2.2.2, hq2y, hq1r, hq2r]
  refine ⟨h1x, h1y, h2x, h2y, ?_⟩
  unfold dist2
  rw [h1x, h1y, h2x, h2y]
  unfold dist2 at hsq
  rw [hnx, hny]
  exact sep_algebra d1.x d1.y d2.x d2.y d (d1.radius + d2.radius) (ne_of_gt hd) hsq

/-- Witness for C5 at the concrete overlapping pair at distance 30. -/
theorem overlap_fix_separates_witness :
    (0 : ℚ) < 30 ∧
    dist2 (handle_disk_collision sepA sepB 30 0).1 (handle_disk_collision sepA sepB 30 0).2.1
      = (sepA.radius + sepB.radius) * (sepA.radius + sepB.radius) :=
  ⟨by norm_num,
   (overlap_fix_separates sepA sepB 30 0 (by norm_num)
     (by norm_num [dist2, sepA, sepB]) (by norm_num [sepA, sepB])).2.2.2.2⟩

/-- C6: a body resting exactly at radius distance from the left and top
    walls with outward velocity is, after one position update with positive
    time delta and speed factor, clamped back to radius on both axes with
    both velocity components sign flipped. -/
theorem boundary_reflection_idempotent (disk : Disk) (dt s : ℚ)
    (hx : disk.x = disk.radius) (hvx : disk.vx < 0)
    (hy : disk.y = disk.radius) (hvy : disk.vy < 0)
    (hdt : 0 < dt) (hs : 0 < s) :
    (update_position disk dt s).x = disk.radius ∧
    (update_position disk dt s).vx = -disk.vx ∧
    (update_position disk dt s).y = disk.radius ∧
    (update_position disk dt s).vy = -disk.vy := by
  have hxlt : disk.x + disk.vx * dt * s - disk.radius < 0 := by
    have : disk.vx * dt * s < 0 :=
      mul_neg_of_neg_of_pos (mul_neg_of_neg_of_pos hvx hdt) hs
    rw [hx]; linarith
  have hylt : disk.y + disk.vy * dt * s - disk.radius < 0 := by
    have : disk.vy * dt * s < 0 :=
      mul_neg_of_neg_of_pos (mul_neg_of_neg_of_pos hvy hdt) hs
    rw [hy]; linarith
  unfold update_position reflect1D
  dsimp only
  rw [if_pos (by linarith : disk.x + disk.vx * dt * s - disk.radius < 0),
      if_pos (by linarith : disk.y + disk.vy * dt * s - disk.radius < 0)]
  refine ⟨by norm_num, rfl, by norm_num, rfl⟩

/-- Witness for C6 at the concrete corner disk with unit time delta. -/
theorem boundary_reflection_idempotent_witness :
    cornerDisk.vx < 0 ∧
    (update_position cornerDisk 1 1).x = cornerDisk.radius ∧
    (update_position cornerDisk 1 1).vx = -cornerDisk.vx ∧
    (update_position cornerDisk 1 1).y = cornerDisk.radius ∧
    (update_position cornerDisk 1 1).vy = -cornerDisk.vy :=
  ⟨by norm_num [cornerDisk],
   (boundary_reflection_idempotent cornerDisk 1 1 rfl (by norm_num [cornerDisk])
     rfl (by norm_num [cornerDisk]) (by norm_num) (by norm_num)).1,
   (boundary_reflection_idempotent cornerDisk 1 1 rfl (by norm_num [cornerDisk])
     rfl (by norm_num [cornerDisk]) (by norm_num) (by norm_num)).2.1,
   (boundary_reflection_idempotent cornerDisk 1 1 rfl (by norm_num [cornerDisk])
     rfl (by norm_num [cornerDisk]) (by norm_num) (by norm_num)).2.2.1,
   (boundary_reflection_idempotent cornerDisk 1 1 rfl (by norm_num [cornerDisk])
     rfl (by norm_num [cornerDisk]) (by norm_num) (by norm_num)).2.2.2⟩

/-- C7: the throttled sampling step leaves the statistics state untouched
    whenever the accumulated elapsed time stays below the sampling interval
    or no collision has ever been recorded. -/
theorem maybe_sample_noop (t dt : ℚ) (cc : ℕ) (disks : List Disk) (st : Stats)
    (h : t + dt < SAMPLING_INTERVAL ∨ cc = 0) :
    (maybe_sample t dt cc disks st).1 = st := by
  unfold maybe_sample
  dsimp only
  have hnc : ¬ (SAMPLING_INTERVAL ≤ t + dt ∧ 0 < cc) := by
    rintro ⟨h1, h2⟩
    rcases h with h | h
    · linarith
    · omega
  rw [if_neg hnc]

/-- Witness for C7: below-interval elapsed time leaves the empty statistics
    state unchanged. -/
theorem maybe_sample_noop_witness :
    (0 : ℚ) + 1 / 20 < SAMPLING_INTERVAL ∧
    (maybe_sample 0 (1 / 20) 5 [] emptyStats).1 = emptyStats :=
  ⟨by norm_num [SAMPLING_INTERVAL],
   maybe_sample_noop 0 (1 / 20) 5 [] emptyStats (Or.inl (by norm_num [SAMPLING_INTERVAL]))⟩

/-- C8: two runs of the stepper over the same tick count with the same
    initial population, the same per-tick time deltas, the same speed
    factor, the same square root oracle and the same seeded draw stream
    produce the same collision counter and the same coin trajectories. -/
theorem seeded_runs_identical (dsq1 dsq2 : ℚ → ℚ) (g1 g2 : ℕ → ℕ) (s1 s2 : ℚ)
    (dts1 dts2 : List ℚ) (p1 p2 : List Disk)
    (hdsq : dsq1 = dsq2) (hg : g1 = g2) (hs : s1 = s2) (hdts : dts1 = dts2) (hp : p1 = p2) :
    (runTicks dsq1 g1 s1 dts1 p1).collisions = (runTicks dsq2 g2 s2 dts2 p2).collisions ∧
    coinTrajectory dsq1 g1 s1 dts1 p1 = coinTrajectory dsq2 g2 s2 dts2 p2 := by
  subst hdsq hg hs hdts hp
  exact ⟨rfl, rfl⟩

/-- Witness for C8 on a concrete one-tick run. -/
theorem seeded_runs_identical_witness :
    (runTicks id (fun _ => 0) 1 [1] [cornerDisk]).collisions
      = (runTicks id (fun _ => 0) 1 [1] [cornerDisk]).collisions ∧
    coinTrajectory id (fun _ => 0) 1 [1] [cornerDisk]
      = coinTrajectory id (fun _ => 0) 1 [1] [cornerDisk] :=
  seeded_runs_identical id id (fun _ => 0) (fun _ => 0) 1 1 [1] [1] [cornerDisk] [cornerDisk]
    rfl rfl rfl rfl rfl

/-- C9: when every candidate inside the 1000 attempt budget is invalid, the
    placement search reports none and population initialization stops with
    an explicit placement error instead of producing an overlapping
    layout. -/
theorem placement_failure_reported (cand vcand : ℕ → ℚ × ℚ) (radius : ℚ)
    (placed : List Disk) (k n : ℕ)
    (h : ∀ j, k ≤ j → j < k + 1000 →
        is_valid_position placed (cand j).1 (cand j).2 radius = false) :
    find_valid_position placed cand k radius = none ∧
    initAux cand vcand radius placed k (n + 1) = Except.error "Failed to place disk" := by
  have hf : find_valid_position placed cand k radius = none :=
    findAux_none_of_all_invalid placed cand radius 1000 k h
  refine ⟨hf, ?_⟩
  unfold initAux
  rw [hf]

/-- Witness for C9 with a candidate stream that always proposes an out of
    bounds center. -/
theorem placement_failure_reported_witness :
    find_valid_position [] badCand 0 20 = none ∧
    initAux badCand badCand 20 [] 0 1 = Except.error "Failed to place disk" :=
  placement_failure_reported badCand badCand 20 [] 0 0
    (fun j _ _ => by norm_num [is_valid_position, badCand])

/-- C10: every resolved collision conserves the vector sum of the two
    velocities, componentwise. -/
theorem handle_conserves_momentum (d1 d2 : Disk) (d : ℚ) (choice : ℕ)
    (hcol : d < d1.radius + d2.radius) :
    (handle_disk_collision d1 d2 d choice).1.vx + (handle_disk_collision d1 d2 d choice).2.1.vx
      = d1.vx + d2.vx ∧
    (handle_disk_collision d1 d2 d choice).1.vy + (handle_disk_collision d1 d2 d choice).2.1.vy
      = d1.vy + d2.vy := by
  rw [handle_pos d1 d2 d choice hcol]
  dsimp only
  have ho := overlapFix_vel
    (coinExchangeUniform (elasticUpdate (d1, d2) ((d2.x - d1.x) / d) ((d2.y - d1.y) / d)) choice)
    ((d2.x - d1.x) / d) ((d2.y - d1.y) / d) d
  have hc := coinExchangeUniform_kin
    (elasticUpdate (d1, d2) ((d2.x - d1.x) / d) ((d2.y - d1.y) / d)) choice
  rw [ho.1, ho.2.1, ho.2.2.1, ho.2.2.2,
      hc.2.2.1, hc.2.2.2.1, hc.2.2.2.2.2.2.2.1, hc.2.2.2.2.2.2.2.2.1]
  unfold elasticUpdate
  dsimp only
  constructor <;> ring

/-- Witness for C10 at the concrete overlapping pair at distance 30. -/
theorem handle_conserves_momentum_witness :
    (30 : ℚ) < sepA.radius + sepB.radius ∧
    (handle_disk_collision sepA sepB 30 0).1.vx + (handle_disk_collision sepA sepB 30 0).2.1.vx
      = sepA.vx + sepB.vx :=
  ⟨by norm_num [sepA, sepB],
   (handle_conserves_momentum sepA sepB 30 0 (by norm_num [sepA, sepB])).1⟩

end DiskSim
